import Mathlib

/-!
Verification development for the GenSVM / MSVMMaj sources.

Shallow embedding conventions:
* C `double` values are modelled as real numbers (`ℝ`); `exp`, `tanh` and the
  Euclidean norm `cblas_dnrm2` become `Real.exp`, `Real.tanh` and
  `Real.sqrt` of a sum of squares.
* Row-major C matrices are modelled either as lists of rows
  (`List (List ℝ)`, when allocation sizes matter) or as index functions
  (`ℕ → ℕ → ℝ`, when only entries matter); out-of-range accesses use the
  `getD` default and are never relied upon by any theorem.
* C structs become Lean structures; functions mutating a struct through a
  pointer become functions returning the updated structure.
* External routines that are not part of the given sources (LAPACK's
  `dpotrf`, `gensvm_simplex_gen`, `gensvm_make_crosskernel`) are taken as
  explicit parameters of the embedded functions, so no behaviour is
  invented for them.
-/

namespace GenSVM

/-- Kernel type enumeration shared by the MSVMMaj and GenSVM headers:
linear, polynomial, radial basis function and sigmoid kernels. -/
inductive KernelType where
| K_LINEAR
| K_POLY
| K_RBF
| K_SIGMOID
deriving DecidableEq

/-- Truncation of a real number toward zero, the semantics of the C cast
`(int) d` applied to a `double`, used by `msvmmaj_compute_poly` for the
polynomial degree. -/
noncomputable def ctrunc (x : ℝ) : ℤ :=
if 0 ≤ x then ⌊x⌋ else ⌈x⌉

/-- Embedding of `msvmmaj_compute_rbf` (msvmmaj_kernel.c lines 130-139):
accumulate the squared Euclidean distance of the first `n` entries of the
two vectors, multiply by `-kernelparam[0]` and exponentiate. -/
noncomputable def msvmmaj_compute_rbf (x1 x2 : List ℝ) (kernelparam : List ℝ)
    (n : ℕ) : ℝ :=
let value := ∑ i ∈ Finset.range n,
  (x1.getD i 0 - x2.getD i 0) * (x1.getD i 0 - x2.getD i 0)
Real.exp (value * (-(kernelparam.getD 0 0)))

/-- Embedding of `msvmmaj_compute_poly` (msvmmaj_kernel.c lines 158-167):
`(gamma * <x1, x2> + c) ^ (int) d` with parameters `(gamma, c, d)`. -/
noncomputable def msvmmaj_compute_poly (x1 x2 : List ℝ) (kernelparam : List ℝ)
    (n : ℕ) : ℝ :=
let value := ∑ i ∈ Finset.range n, x1.getD i 0 * x2.getD i 0
(value * kernelparam.getD 0 0 + kernelparam.getD 1 0) ^ ctrunc (kernelparam.getD 2 0)

/-- Embedding of `msvmmaj_compute_sigmoid` (msvmmaj_kernel.c lines 186-195):
`tanh(gamma * <x1, x2> + c)` with parameters `(gamma, c)`. -/
noncomputable def msvmmaj_compute_sigmoid (x1 x2 : List ℝ) (kernelparam : List ℝ)
    (n : ℕ) : ℝ :=
let value := ∑ i ∈ Finset.range n, x1.getD i 0 * x2.getD i 0
Real.tanh (value * kernelparam.getD 0 0 + kernelparam.getD 1 0)

/-- The `MajData` struct (msvmmaj.h): instance count `n`, feature count `m`,
the bias-augmented row-major `n x (m+1)` matrix `Z` as a list of rows, the
label vector `y`, and the kernel descriptor recorded on the data. -/
structure MajData where
  n : ℕ
  m : ℕ
  Z : List (List ℝ)
  y : List ℤ
  kerneltype : KernelType
  kernelparam : List ℝ
  use_cholesky : Bool

/-- The `MajModel` struct (msvmmaj.h): dimensions, hyperparameters, kernel
descriptor, and the solver buffers reallocated by `msvmmaj_reallocate_model`.
Buffers are lists of doubles whose lengths model the allocation sizes. -/
structure MajModel where
  n : ℕ
  m : ℕ
  K : ℕ
  p : ℝ
  kappa : ℝ
  lambda : ℝ
  epsilon : ℝ
  weight_idx : ℤ
  kerneltype : KernelType
  kernelparam : List ℝ
  use_cholesky : Bool
  W : List ℝ
  t : List ℝ
  V : List ℝ
  Vbar : List ℝ
  U : List ℝ
  UU : List ℝ
  Q : List ℝ
  H : List ℝ
  R : List ℝ
  rho : List ℝ

/-- Feature part of row `i` of `data->Z`: the pointer
`&data->Z[i*(data->m+1)+1]` skips the bias entry of the row. -/
def majDataRow (data : MajData) (i : ℕ) : List ℝ :=
(data.Z.getD i []).drop 1

/-- Kernel dispatch inside `msvmmaj_make_kernel` (msvmmaj_kernel.c lines
46-59). The source calls `msvmmaj_compute_rbf` in the `K_SIGMOID` branch
(line 53), not `msvmmaj_compute_sigmoid`; the embedding reproduces this
faithfully. The `K_LINEAR` arm is unreachable (early return at line 34);
the unknown-kernel `else` branch of the source exits the process. -/
noncomputable def msvmmaj_kernel_value (model : MajModel) (data : MajData)
    (i j : ℕ) : ℝ :=
match model.kerneltype with
| KernelType.K_POLY =>
    msvmmaj_compute_poly (majDataRow data i) (majDataRow data j)
      model.kernelparam data.m
| KernelType.K_RBF =>
    msvmmaj_compute_rbf (majDataRow data i) (majDataRow data j)
      model.kernelparam data.m
| KernelType.K_SIGMOID =>
    msvmmaj_compute_rbf (majDataRow data i) (majDataRow data j)
      model.kernelparam data.m
| KernelType.K_LINEAR => 0

/-- The kernel Gram matrix built by the double loop of
`msvmmaj_make_kernel` (lines 42-63): the value is computed once for each
pair `i <= j` and stored at both `(i,j)` and `(j,i)`. -/
noncomputable def msvmmaj_make_kernel_gram (model : MajModel) (data : MajData)
    (i j : ℕ) : ℝ :=
if i ≤ j then msvmmaj_kernel_value model data i j
else msvmmaj_kernel_value model data j i

/-- The switch at msvmmaj_kernel.c lines 90-107 copying the model's kernel
parameters into a freshly allocated array on the data. The `K_LINEAR` case
is unreachable (early return); the source leaves the freed pointer there. -/
def msvmmaj_copy_kernelparam (kt : KernelType) (kp : List ℝ) : List ℝ :=
match kt with
| KernelType.K_LINEAR => []
| KernelType.K_POLY => [kp.getD 0 0, kp.getD 1 0, kp.getD 2 0]
| KernelType.K_RBF => [kp.getD 0 0]
| KernelType.K_SIGMOID => [kp.getD 0 0, kp.getD 1 0]

/-- Embedding of `msvmmaj_make_kernel` (msvmmaj_kernel.c lines 31-111).
For the linear kernel the function returns immediately, leaving model and
data untouched. Otherwise it builds the `n x n` Gram matrix (`n = model->n`),
optionally replaces it by its Cholesky factor (`dpotrf`, a LAPACK routine
outside the given sources, passed here as the abstract parameter
`dpotrfL`), reallocates `data->Z` to `n x (n+1)`, stores the matrix with a
prepended all-ones bias column, sets `data->m = n` and `model->m = n`, and
retains the kernel descriptor on the data. -/
noncomputable def msvmmaj_make_kernel
    (dpotrfL : (ℕ → ℕ → ℝ) → (ℕ → ℕ → ℝ))
    (model : MajModel) (data : MajData) : MajModel × MajData :=
if model.kerneltype = KernelType.K_LINEAR then (model, data)
else
  let n := model.n
  let Kmat0 := msvmmaj_make_kernel_gram model data
  let Kmat := if model.use_cholesky then dpotrfL Kmat0 else Kmat0
  let newZ := (List.range n).map
    (fun i => (1 : ℝ) :: (List.range n).map (fun j => Kmat i j))
  let data' : MajData :=
    { data with
      Z := newZ
      m := n
      kerneltype := model.kerneltype
      kernelparam := msvmmaj_copy_kernelparam model.kerneltype model.kernelparam
      use_cholesky := model.use_cholesky }
  ({ model with m := n }, data')

/-- The `GenData` struct as used by gensvm_pred.c: test-set size `n`,
feature count `m`, reduced dimension `r`, the bias-augmented matrix `Z` as
a row-major index function, and the label vector `y`. -/
structure GenData where
  n : ℕ
  m : ℕ
  r : ℕ
  Z : ℕ → ℕ → ℝ
  y : ℕ → ℤ

/-- The part of the `GenModel` struct consumed by the prediction routines:
the class count `K` and the `(m+1) x (K-1)` weight matrix `V`. -/
structure GenModel where
  K : ℕ
  V : ℕ → ℕ → ℝ

/-- Euclidean norm of the first `K` entries of a vector, the semantics of
`cblas_dnrm2(K, S, 1)`. -/
noncomputable def gensvm_dnrm2 (K : ℕ) (S : ℕ → ℝ) : ℝ :=
Real.sqrt (∑ k ∈ Finset.range K, S k * S k)

/-- Row `i` of the matrix product `ZV = data->Z * model->V` computed by the
`cblas_dgemm` call of `gensvm_predict_labels_linear` (inner dimension
`data->m + 1`). -/
noncomputable def gensvm_ZV (data : GenData) (model : GenModel) (i k : ℕ) : ℝ :=
∑ s ∈ Finset.range (data.m + 1), data.Z i s * model.V s k

/-- Distance of instance `i` to simplex vertex `j` in the linear prediction
path: `cblas_dnrm2(K-1, S, 1)` where `S[k] = ZV[i][k] - U[j][k]`. -/
noncomputable def gensvm_pred_dist (data : GenData) (model : GenModel)
    (U : ℕ → ℕ → ℝ) (i j : ℕ) : ℝ :=
gensvm_dnrm2 (model.K - 1) (fun k => gensvm_ZV data model i k - U j k)

/-- Squared distance of instance `i` to simplex vertex `j` in the linear
prediction path (the argument of the square root in `gensvm_pred_dist`). -/
noncomputable def gensvm_pred_distsq (data : GenData) (model : GenModel)
    (U : ℕ → ℕ → ℝ) (i j : ℕ) : ℝ :=
∑ k ∈ Finset.range (model.K - 1),
  (gensvm_ZV data model i k - U j k) * (gensvm_ZV data model i k - U j k)

/-- Body of the vertex loop of the prediction routines: starting from
`(label, min_dist)`, vertex `j` replaces the pair by `(j+1, d j)` exactly
when its distance is strictly below the current minimum. -/
noncomputable def predStep (d : ℕ → ℝ) (s : ℕ × ℝ) (j : ℕ) : ℕ × ℝ :=
if d j < s.2 then (j + 1, d j) else s

/-- The vertex loop `for (j=0; j<K; j++)` of the prediction routines, with
initial state `label = 0` and `min_dist = init`. -/
noncomputable def gensvm_predict_scan (d : ℕ → ℝ) (K : ℕ) (init : ℝ) : ℕ × ℝ :=
(List.range K).foldl (predStep d) (0, init)

/-- Embedding of the per-instance body of `gensvm_predict_labels_linear`
(gensvm_pred.c lines 49-105): `predy[i]` is the label selected by the
vertex loop over the distances of instance `i`, starting from the sentinel
`min_dist = 1000000000.0`. The simplex matrix `U` produced by
`gensvm_simplex_gen` (not part of the given sources) is a parameter. -/
noncomputable def gensvm_predict_labels_linear (data : GenData)
    (model : GenModel) (U : ℕ → ℕ → ℝ) (i : ℕ) : ℕ :=
(gensvm_predict_scan (fun j => gensvm_pred_dist data model U i j)
  model.K 1000000000).1

/-- Body of the vertex loop of the unified `gensvm_predict_labels`
(gensvm_pred.c lines 251-308) whose sentinel is IEEE `INFINITY`, modelled
as `none`: every finite distance compares strictly below it. -/
noncomputable def predStepInf (d : ℕ → ℝ) (s : ℕ × Option ℝ) (j : ℕ) :
    ℕ × Option ℝ :=
match s.2 with
| none => (j + 1, some (d j))
| some md => if d j < md then (j + 1, some (d j)) else s

/-- The vertex loop of the unified `gensvm_predict_labels`, with initial
state `label = 0` and `min_dist = INFINITY`. -/
noncomputable def gensvm_predict_scan_inf (d : ℕ → ℝ) (K : ℕ) : ℕ × Option ℝ :=
(List.range K).foldl (predStepInf d) (0, none)

/-- Row `i` of `ZV = testdata->Z * model->V` in the unified
`gensvm_predict_labels`, whose inner dimension is `testdata->r + 1`. -/
noncomputable def gensvm_ZV_r (testdata : GenData) (model : GenModel)
    (i k : ℕ) : ℝ :=
∑ s ∈ Finset.range (testdata.r + 1), testdata.Z i s * model.V s k

/-- Distance of instance `i` to simplex vertex `j` in the unified
`gensvm_predict_labels`. -/
noncomputable def gensvm_pred_dist_r (testdata : GenData) (model : GenModel)
    (U : ℕ → ℕ → ℝ) (i j : ℕ) : ℝ :=
gensvm_dnrm2 (model.K - 1) (fun k => gensvm_ZV_r testdata model i k - U j k)

/-- Squared distance of instance `i` to simplex vertex `j` in the unified
`gensvm_predict_labels`. -/
noncomputable def gensvm_pred_distsq_r (testdata : GenData) (model : GenModel)
    (U : ℕ → ℕ → ℝ) (i j : ℕ) : ℝ :=
∑ k ∈ Finset.range (model.K - 1),
  (gensvm_ZV_r testdata model i k - U j k) *
    (gensvm_ZV_r testdata model i k - U j k)

/-- Embedding of the per-instance body of the unified
`gensvm_predict_labels` (gensvm_pred.c lines 251-308): vertex loop over
the distances of instance `i` starting from `min_dist = INFINITY`. -/
noncomputable def gensvm_predict_labels (testdata : GenData)
    (model : GenModel) (U : ℕ → ℕ → ℝ) (i : ℕ) : ℕ :=
(gensvm_predict_scan_inf (fun j => gensvm_pred_dist_r testdata model U i j)
  model.K).1

/-- The counting loop of `gensvm_prediction_perf` (gensvm_pred.c lines
208-210): the number of instances whose true label equals the predicted
label. -/
def gensvm_prediction_correct (data : GenData) (predy : ℕ → ℤ) : ℤ :=
(List.range data.n).foldl
  (fun correct i => if data.y i = predy i then correct + 1 else correct) 0

/-- Embedding of `gensvm_prediction_perf` (gensvm_pred.c lines 203-215):
`((double) correct) / ((double) data->n) * 100.0`. -/
noncomputable def gensvm_prediction_perf (data : GenData) (predy : ℕ → ℤ) : ℝ :=
((gensvm_prediction_correct data predy : ℝ) / (data.n : ℝ)) * 100

/-- The `GenTask` struct (gensvm.h): a hyperparameter bundle. The
`train_data` and `test_data` pointers to shared `GenData` are modelled as
optional reference identifiers (`none` is the NULL pointer); the
`kernelparam` pointer is a list (`[]` is the NULL pointer). -/
structure GenTask where
  kerneltype : KernelType
  weight_idx : ℤ
  folds : ℤ
  ID : ℤ
  p : ℝ
  kappa : ℝ
  lambda : ℝ
  epsilon : ℝ
  kernelparam : List ℝ
  train_data : Option ℕ
  test_data : Option ℕ
  performance : ℝ

/-- Embedding of `gensvm_init_task` (gensvm_task.c lines 38-56): the
default task. -/
def gensvm_init_task : GenTask :=
{ kerneltype := KernelType.K_LINEAR
  weight_idx := 1
  folds := 10
  ID := -1
  p := 1
  kappa := 0
  lambda := 1
  epsilon := 1e-6
  kernelparam := []
  train_data := none
  test_data := none
  performance := 0 }

/-- Embedding of `gensvm_copy_task` (gensvm_task.c lines 88-120): start
from `gensvm_init_task`, copy every scalar field and the data references,
and copy the kernel parameters into a fresh array whose length depends on
the kernel type (NULL for linear, 1 for RBF, 3 for polynomial, 2 for
sigmoid). -/
def gensvm_copy_task (t : GenTask) : GenTask :=
let nt := gensvm_init_task
{ nt with
  weight_idx := t.weight_idx
  folds := t.folds
  ID := t.ID
  p := t.p
  kappa := t.kappa
  lambda := t.lambda
  epsilon := t.epsilon
  train_data := t.train_data
  test_data := t.test_data
  performance := t.performance
  kerneltype := t.kerneltype
  kernelparam :=
    match t.kerneltype with
    | KernelType.K_LINEAR => []
    | KernelType.K_RBF => [t.kernelparam.getD 0 0]
    | KernelType.K_POLY =>
        [t.kernelparam.getD 0 0, t.kernelparam.getD 1 0, t.kernelparam.getD 2 0]
    | KernelType.K_SIGMOID =>
        [t.kernelparam.getD 0 0, t.kernelparam.getD 1 0] }

/-- The label post-processing of `msvmmaj_read_data` (util.c lines 53-90),
as a pure function of the raw label column of the file. Mirroring the
source: `y[0]` is stored while parsing the first line (line 55); the scan
loop `for (i=1; i<n; i++)` (lines 62-73) folds only the labels of
instances `1..n-1` into `K` (`maximum`, started at 0) and `min_y`
(`minimum`, started at 1000). If `min_y == 0` every label is incremented
and `K` is incremented; if `min_y < 0` the routine rejects the file
(process exit, modelled as `none`); otherwise labels and `K` are returned
as scanned. -/
def msvmmaj_read_data_labels (ylist : List ℤ) : Option (List ℤ × ℤ) :=
let K := (ylist.drop 1).foldl (fun a v => max a v) 0
let min_y := (ylist.drop 1).foldl (fun a v => min a v) 1000
if min_y = 0 then some (ylist.map (fun v => v + 1), K + 1)
else if min_y < 0 then none
else some (ylist, K)

/-- Semantics of `realloc(buf, s * sizeof(double))` on a buffer modelled as
a list: the first `min s (length)` entries are preserved and any grown
region holds unspecified values, represented by the parameter `junk`. -/
def reallocBuf (junk : ℝ) (xs : List ℝ) (s : ℕ) : List ℝ :=
xs.take s ++ List.replicate (s - xs.length) junk

/-- Embedding of `msvmmaj_reallocate_model` (msvmmaj_init.c lines 157-221):
return unchanged when both dimensions match; otherwise resize the
per-instance buffers `UU, Q, H, R, rho` (and set `n`) when `n` differs,
and resize `W, V, Vbar` (and set `m`) when `m` differs. -/
def msvmmaj_reallocate_model (junk : ℝ) (model : MajModel) (n m : ℕ) :
    MajModel :=
let K := model.K
if model.n = n ∧ model.m = m then model
else
  let model1 :=
    if model.n ≠ n then
      { model with
        UU := reallocBuf junk model.UU (n * K * (K - 1))
        Q := reallocBuf junk model.Q (n * K)
        H := reallocBuf junk model.H (n * K)
        R := reallocBuf junk model.R (n * K)
        rho := reallocBuf junk model.rho n
        n := n }
    else model
  if model1.m ≠ m then
    { model1 with
      W := reallocBuf junk model1.W (m * (K - 1))
      V := reallocBuf junk model1.V ((m + 1) * (K - 1))
      Vbar := reallocBuf junk model1.Vbar ((m + 1) * (K - 1))
      m := m }
  else model1

/-! Generic facts about the vertex-selection loop `gensvm_predict_scan`. -/

lemma predStep_snd_le (d : ℕ → ℝ) (s : ℕ × ℝ) (j : ℕ) :
    (predStep d s j).2 ≤ s.2 := by
  unfold predStep
  split
  · exact le_of_lt (by assumption)
  · exact le_rfl

lemma gensvm_predict_scan_zero (d : ℕ → ℝ) (init : ℝ) :
    gensvm_predict_scan d 0 init = (0, init) := rfl

lemma gensvm_predict_scan_succ (d : ℕ → ℝ) (K : ℕ) (init : ℝ) :
    gensvm_predict_scan d (K + 1) init
      = predStep d (gensvm_predict_scan d K init) K := by
  unfold gensvm_predict_scan
  rw [List.range_succ, List.foldl_append]
  rfl

lemma gensvm_predict_scan_snd_le_init (d : ℕ → ℝ) (K : ℕ) (init : ℝ) :
    (gensvm_predict_scan d K init).2 ≤ init := by
  induction K with
  | zero => exact le_rfl
  | succ K ih =>
      rw [gensvm_predict_scan_succ]
      exact le_trans (predStep_snd_le d _ K) ih

lemma gensvm_predict_scan_snd_le (d : ℕ → ℝ) (K : ℕ) (init : ℝ) :
    ∀ t, t < K → (gensvm_predict_scan d K init).2 ≤ d t := by
  induction K with
  | zero => intro t ht; omega
  | succ K ih =>
      intro t ht
      rw [gensvm_predict_scan_succ]
      rcases Nat.lt_succ_iff_lt_or_eq.mp ht with h | h
      · exact le_trans (predStep_snd_le d _ K) (ih t h)
      · subst h
        unfold predStep
        split
        · exact le_rfl
        · exact le_of_not_lt (by assumption)

lemma gensvm_predict_scan_snd_cases (d : ℕ → ℝ) (K : ℕ) (init : ℝ) :
    (gensvm_predict_scan d K init).2 = init ∨
      ∃ t, t < K ∧ (gensvm_predict_scan d K init).2 = d t := by
  induction K with
  | zero => exact Or.inl rfl
  | succ K ih =>
      rw [gensvm_predict_scan_succ]
      unfold predStep
      split
      · exact Or.inr ⟨K, Nat.lt_succ_self K, rfl⟩
      · rcases ih with h | ⟨t, ht, he⟩
        · exact Or.inl h
        · exact Or.inr ⟨t, ht.trans (Nat.lt_succ_self K), he⟩

lemma gensvm_predict_scan_fst_cases (d : ℕ → ℝ) (K : ℕ) (init : ℝ) :
    (gensvm_predict_scan d K init).1 = 0 ∨
      (1 ≤ (gensvm_predict_scan d K init).1 ∧
        (gensvm_predict_scan d K init).1 ≤ K) := by
  induction K with
  | zero => exact Or.inl rfl
  | succ K ih =>
      rw [gensvm_predict_scan_succ]
      unfold predStep
      split
      · exact Or.inr ⟨by omega, by omega⟩
      · rcases ih with h | ⟨h1, h2⟩
        · exact Or.inl h
        · exact Or.inr ⟨h1, h2.trans (Nat.le_succ K)⟩

lemma gensvm_predict_scan_fst_pos (d : ℕ → ℝ) (K : ℕ) (init : ℝ)
    (h : ∃ t, t < K ∧ d t < init) :
    1 ≤ (gensvm_predict_scan d K init).1 := by
  induction K with
  | zero => obtain ⟨t, ht, _⟩ := h; omega
  | succ K ih =>
      rw [gensvm_predict_scan_succ]
      unfold predStep
      split
      · simp
      · rename_i hK
        apply ih
        obtain ⟨t, ht, hd⟩ := h
        rcases Nat.lt_succ_iff_lt_or_eq.mp ht with h' | h'
        · exact ⟨t, h', hd⟩
        · rw [h'] at hd
          have hle : (gensvm_predict_scan d K init).2 ≤ d K := le_of_not_lt hK
          have hlt : (gensvm_predict_scan d K init).2 < init :=
            lt_of_le_of_lt hle hd
          rcases gensvm_predict_scan_snd_cases d K init with h0 | ⟨t0, ht0, he⟩
          · rw [h0] at hlt; exact absurd hlt (lt_irrefl init)
          · exact ⟨t0, ht0, by rw [← he]; exact hlt⟩

lemma gensvm_predict_scan_argmin (d : ℕ → ℝ) (K : ℕ) (init : ℝ) (js : ℕ)
    (h1 : js < K) (h2 : d js < init)
    (h3 : ∀ t, t < K → d js ≤ d t)
    (h4 : ∀ t, t < js → d js < d t) :
    gensvm_predict_scan d K init = (js + 1, d js) := by
  induction K with
  | zero => omega
  | succ K ih =>
      rw [gensvm_predict_scan_succ]
      rcases Nat.lt_succ_iff_lt_or_eq.mp h1 with hlt | heq
      · have hscan : gensvm_predict_scan d K init = (js + 1, d js) :=
          ih hlt (fun t ht => h3 t (ht.trans (Nat.lt_succ_self K)))
        rw [hscan]
        unfold predStep
        rw [if_neg (not_lt.mpr (h3 K (Nat.lt_succ_self K)))]
      · subst heq
        have hsnd : d js < (gensvm_predict_scan d js init).2 := by
          rcases gensvm_predict_scan_snd_cases d js init with h0 | ⟨t0, ht0, he⟩
          · rw [h0]; exact h2
          · rw [he]; exact h4 t0 ht0
        unfold predStep
        rw [if_pos hsnd]

lemma foldl_predStepInf_some (d : ℕ → ℝ) (l : List ℕ) (a : ℕ) (m : ℝ) :
    l.foldl (predStepInf d) (a, some m)
      = ((l.foldl (predStep d) (a, m)).1, some (l.foldl (predStep d) (a, m)).2) := by
  induction l generalizing a m with
  | nil => rfl
  | cons j t ih =>
      rw [List.foldl_cons, List.foldl_cons]
      show t.foldl (predStepInf d)
          (if d j < m then (j + 1, some (d j)) else (a, some m)) = _
      by_cases hj : d j < m
      · rw [if_pos hj]
        rw [ih]
        congr 1 <;> unfold predStep <;> rw [if_pos hj]
      · rw [if_neg hj]
        rw [ih]
        congr 1 <;> unfold predStep <;> rw [if_neg hj]

/-- The vertex loop started from the IEEE `INFINITY` sentinel selects the
same label as the loop started from any finite sentinel strictly above the
first distance: both necessarily update at `j = 0`. -/
lemma gensvm_predict_scan_inf_fst (d : ℕ → ℝ) (K : ℕ) (hK : 1 ≤ K) :
    (gensvm_predict_scan_inf d K).1
      = (gensvm_predict_scan d K (d 0 + 1)).1 := by
  obtain ⟨K', rfl⟩ : ∃ K', K = K' + 1 := ⟨K - 1, by omega⟩
  unfold gensvm_predict_scan_inf gensvm_predict_scan
  rw [List.range_succ_eq_map, List.foldl_cons, List.foldl_cons]
  have h0 : predStepInf d (0, none) 0 = (1, some (d 0)) := rfl
  have h1 : predStep d (0, d 0 + 1) 0 = (1, d 0) := by
    have : d 0 < ((0 : ℕ), d 0 + 1).2 := by
      show d 0 < d 0 + 1
      linarith
    unfold predStep
    rw [if_pos this]
  rw [h0, h1, foldl_predStepInf_some]

lemma gensvm_pred_dist_eq (data : GenData) (model : GenModel)
    (U : ℕ → ℕ → ℝ) (i j : ℕ) :
    gensvm_pred_dist data model U i j
      = Real.sqrt (gensvm_pred_distsq data model U i j) := rfl

lemma gensvm_pred_dist_r_eq (testdata : GenData) (model : GenModel)
    (U : ℕ → ℕ → ℝ) (i j : ℕ) :
    gensvm_pred_dist_r testdata model U i j
      = Real.sqrt (gensvm_pred_distsq_r testdata model U i j) := rfl

lemma gensvm_pred_distsq_nonneg (data : GenData) (model : GenModel)
    (U : ℕ → ℕ → ℝ) (i j : ℕ) :
    0 ≤ gensvm_pred_distsq data model U i j :=
  Finset.sum_nonneg (fun _ _ => mul_self_nonneg _)

lemma gensvm_pred_distsq_r_nonneg (testdata : GenData) (model : GenModel)
    (U : ℕ → ℕ → ℝ) (i j : ℕ) :
    0 ≤ gensvm_pred_distsq_r testdata model U i j :=
  Finset.sum_nonneg (fun _ _ => mul_self_nonneg _)

/-- When no vertex distance falls below the sentinel, the loop never
updates and the initial label 0 survives. -/
lemma gensvm_predict_scan_no_hit (d : ℕ → ℝ) (K : ℕ) (init : ℝ)
    (h : ∀ t, t < K → init ≤ d t) :
    gensvm_predict_scan d K init = (0, init) := by
  induction K with
  | zero => rfl
  | succ K ih =>
      rw [gensvm_predict_scan_succ,
        ih (fun t ht => h t (ht.trans (Nat.lt_succ_self K)))]
      unfold predStep
      rw [if_neg (not_lt.mpr (h K (Nat.lt_succ_self K)))]

/-- Concrete test data with one instance whose mapped point is far from
both simplex vertices: one raw feature column, `Z = [1]` per row. -/
def farData : GenData :=
{ n := 1, m := 0, r := 0, Z := fun _ _ => 1, y := fun _ => 1 }

/-- Concrete two-class model mapping `farData`'s instance to coordinate
`2000000000`, beyond the finite sentinel `1e9` of the linear path. -/
def farModel : GenModel :=
{ K := 2, V := fun _ _ => 2000000000 }

/-- Concrete simplex-vertex matrix for two classes: vertices -1 and 1. -/
def farU : ℕ → ℕ → ℝ :=
fun j _ => if j = 0 then -1 else 1

lemma farData_distsq_zero :
    gensvm_pred_distsq farData farModel farU 0 0
      = 2000000001 * 2000000001 := by
  unfold gensvm_pred_distsq gensvm_ZV farData farModel farU
  norm_num [Finset.sum_range_one]

lemma farData_distsq_one :
    gensvm_pred_distsq farData farModel farU 0 1
      = 1999999999 * 1999999999 := by
  unfold gensvm_pred_distsq gensvm_ZV farData farModel farU
  norm_num [Finset.sum_range_one]

/-- On `farData`, every vertex distance stays above the `1e9` sentinel, so
the linear prediction path leaves the label at its initial value 0. -/
lemma farData_label_zero :
    gensvm_predict_labels_linear farData farModel farU 0 = 0 := by
  unfold gensvm_predict_labels_linear
  rw [gensvm_predict_scan_no_hit]
  intro t ht
  rw [gensvm_pred_dist_eq]
  have ht2 : t < 2 := ht
  clear ht
  interval_cases t
  · rw [farData_distsq_zero]
    exact (Real.le_sqrt' (by norm_num)).mpr (by norm_num)
  · rw [farData_distsq_one]
    exact (Real.le_sqrt' (by norm_num)).mpr (by norm_num)

/-- C2 (counterexample): on `farData` both vertex distances exceed the
finite sentinel `1e9` that initializes `min_dist` in
`gensvm_predict_labels_linear`, so `predy[0]` is left at 0 even though
vertex 1 is strictly nearer than vertex 0, contradicting the claim that
`predy[i]` always equals the minimizing index plus one (here `1 + 1`). -/
theorem claim_C2_counterexample :
    gensvm_predict_labels_linear farData farModel farU 0 = 0 ∧
    gensvm_pred_distsq farData farModel farU 0 1
      < gensvm_pred_distsq farData farModel farU 0 0 ∧
    (0 : ℕ) ≠ 1 + 1 := by
  refine ⟨farData_label_zero, ?_, by omega⟩
  rw [farData_distsq_zero, farData_distsq_one]
  norm_num

/-- C2 (amended): for every test instance `i`, the predicted label equals
`js + 1` where `js` is the smallest index of a simplex vertex minimizing
the Euclidean distance between row `i` of `Z * V` and row `js` of `U` —
provided, in the linear path, that the minimal distance is below the
sentinel `1e9` initializing `min_dist` (equivalently, the squared distance
is below `1e18`); in the unified `gensvm_predict_labels` variant the
sentinel is `INFINITY` and no such proviso is needed. Minimality and the
tie-break are stated via squared distances, which order the same way as
the distances themselves since the square root is strictly monotone on
nonnegative reals. -/
theorem claim_C2_nearest_vertex_label :
    (∀ (data : GenData) (model : GenModel) (U : ℕ → ℕ → ℝ) (i js : ℕ),
      js < model.K →
      gensvm_pred_distsq data model U i js < 10 ^ 18 →
      (∀ t, t < model.K → gensvm_pred_distsq data model U i js
        ≤ gensvm_pred_distsq data model U i t) →
      (∀ t, t < js → gensvm_pred_distsq data model U i js
        < gensvm_pred_distsq data model U i t) →
      gensvm_predict_labels_linear data model U i = js + 1) ∧
    (∀ (testdata : GenData) (model : GenModel) (U : ℕ → ℕ → ℝ) (i js : ℕ),
      js < model.K →
      (∀ t, t < model.K → gensvm_pred_distsq_r testdata model U i js
        ≤ gensvm_pred_distsq_r testdata model U i t) →
      (∀ t, t < js → gensvm_pred_distsq_r testdata model U i js
        < gensvm_pred_distsq_r testdata model U i t) →
      gensvm_predict_labels testdata model U i = js + 1) := by
  constructor
  · intro data model U i js h1 h2 h3 h4
    have h2' : gensvm_pred_dist data model U i js < 1000000000 := by
      rw [gensvm_pred_dist_eq]
      refine (Real.sqrt_lt' (by norm_num)).mpr ?_
      calc gensvm_pred_distsq data model U i js < 10 ^ 18 := h2
        _ = (1000000000 : ℝ) ^ 2 := by norm_num
    have h3' : ∀ t, t < model.K → gensvm_pred_dist data model U i js
        ≤ gensvm_pred_dist data model U i t := by
      intro t ht
      rw [gensvm_pred_dist_eq, gensvm_pred_dist_eq]
      exact Real.sqrt_le_sqrt (h3 t ht)
    have h4' : ∀ t, t < js → gensvm_pred_dist data model U i js
        < gensvm_pred_dist data model U i t := by
      intro t ht
      rw [gensvm_pred_dist_eq, gensvm_pred_dist_eq]
      exact Real.sqrt_lt_sqrt (gensvm_pred_distsq_nonneg data model U i js)
        (h4 t ht)
    unfold gensvm_predict_labels_linear
    rw [gensvm_predict_scan_argmin _ model.K 1000000000 js h1 h2' h3' h4']
  · intro testdata model U i js h1 h3 h4
    have h3' : ∀ t, t < model.K → gensvm_pred_dist_r testdata model U i js
        ≤ gensvm_pred_dist_r testdata model U i t := by
      intro t ht
      rw [gensvm_pred_dist_r_eq, gensvm_pred_dist_r_eq]
      exact Real.sqrt_le_sqrt (h3 t ht)
    have h4' : ∀ t, t < js → gensvm_pred_dist_r testdata model U i js
        < gensvm_pred_dist_r testdata model U i t := by
      intro t ht
      rw [gensvm_pred_dist_r_eq, gensvm_pred_dist_r_eq]
      exact Real.sqrt_lt_sqrt
        (gensvm_pred_distsq_r_nonneg testdata model U i js) (h4 t ht)
    have h2' : gensvm_pred_dist_r testdata model U i js
        < gensvm_pred_dist_r testdata model U i 0 + 1 :=
      lt_of_le_of_lt (h3' 0 (by omega)) (lt_add_one _)
    unfold gensvm_predict_labels
    rw [gensvm_predict_scan_inf_fst _ _ (by omega)]
    rw [gensvm_predict_scan_argmin _ model.K _ js h1 h2' h3' h4']

/-- Concrete one-instance test data for exercising the nearest-vertex
rule within the sentinel: one bias-only column, `Z = [1]`. -/
def nearData : GenData :=
{ n := 1, m := 0, r := 0, Z := fun _ _ => 1, y := fun _ => 1 }

/-- Concrete two-class model mapping `nearData`'s instance to simplex
coordinate 2, nearer to vertex 1 (coordinate 1) than vertex 0 (-1). -/
def nearModel : GenModel :=
{ K := 2, V := fun _ _ => 2 }

lemma nearData_distsq_zero :
    gensvm_pred_distsq nearData nearModel farU 0 0 = 3 * 3 := by
  unfold gensvm_pred_distsq gensvm_ZV nearData nearModel farU
  norm_num [Finset.sum_range_one]

lemma nearData_distsq_one :
    gensvm_pred_distsq nearData nearModel farU 0 1 = 1 * 1 := by
  unfold gensvm_pred_distsq gensvm_ZV nearData nearModel farU
  norm_num [Finset.sum_range_one]

lemma nearData_distsq_r_zero :
    gensvm_pred_distsq_r nearData nearModel farU 0 0 = 3 * 3 := by
  unfold gensvm_pred_distsq_r gensvm_ZV_r nearData nearModel farU
  norm_num [Finset.sum_range_one]

lemma nearData_distsq_r_one :
    gensvm_pred_distsq_r nearData nearModel farU 0 1 = 1 * 1 := by
  unfold gensvm_pred_distsq_r gensvm_ZV_r nearData nearModel farU
  norm_num [Finset.sum_range_one]

/-- Witness for C2: on a concrete instance mapped to coordinate 2, vertex
1 is the unique nearest simplex vertex and both prediction variants
output label `1 + 1 = 2`. -/
theorem claim_C2_witness :
    (1 : ℕ) < 2 ∧
    gensvm_predict_labels_linear nearData nearModel farU 0 = 1 + 1 ∧
    gensvm_predict_labels nearData nearModel farU 0 = 1 + 1 := by
  refine ⟨by omega, ?_, ?_⟩
  · refine claim_C2_nearest_vertex_label.1 nearData nearModel farU 0 1
      (show 1 < 2 by omega) ?_ ?_ ?_
    · rw [nearData_distsq_one]; norm_num
    · intro t ht
      have ht2 : t < 2 := ht
      clear ht
      interval_cases t
      · rw [nearData_distsq_one, nearData_distsq_zero]; norm_num
      · rw [nearData_distsq_one]
    · intro t ht
      have ht2 : t < 1 := ht
      clear ht
      interval_cases t
      rw [nearData_distsq_one, nearData_distsq_zero]; norm_num
  · refine claim_C2_nearest_vertex_label.2 nearData nearModel farU 0 1
      (show 1 < 2 by omega) ?_ ?_
    · intro t ht
      have ht2 : t < 2 := ht
      clear ht
      interval_cases t
      · rw [nearData_distsq_r_one, nearData_distsq_r_zero]; norm_num
      · rw [nearData_distsq_r_one]
    · intro t ht
      have ht2 : t < 1 := ht
      clear ht
      interval_cases t
      rw [nearData_distsq_r_one, nearData_distsq_r_zero]; norm_num

/-- C9 (counterexample): on `farData`, both vertex distances exceed the
finite sentinel `1e9` of `gensvm_predict_labels_linear`, the first
comparison against the sentinel fails, and the output label is the
initial value 0, which does not lie in `[1, K]`. -/
theorem claim_C9_counterexample :
    gensvm_predict_labels_linear farData farModel farU 0 = 0 ∧
    ¬ 1 ≤ gensvm_predict_labels_linear farData farModel farU 0 := by
  refine ⟨farData_label_zero, ?_⟩
  rw [farData_label_zero]
  omega

/-- C9 (amended): every label written by the prediction routines lies in
`[1, K]` provided some simplex vertex lies within the initial
minimum-distance sentinel: in the linear path this means some squared
distance below `1e18` (the square of the `1e9` sentinel); in the unified
`gensvm_predict_labels` variant the sentinel is `INFINITY`, the first
comparison always succeeds, and `K >= 2` suffices. -/
theorem claim_C9_label_range :
    (∀ (data : GenData) (model : GenModel) (U : ℕ → ℕ → ℝ) (i : ℕ),
      (∃ t, t < model.K ∧ gensvm_pred_distsq data model U i t < 10 ^ 18) →
      1 ≤ gensvm_predict_labels_linear data model U i ∧
        gensvm_predict_labels_linear data model U i ≤ model.K) ∧
    (∀ (testdata : GenData) (model : GenModel) (U : ℕ → ℕ → ℝ) (i : ℕ),
      2 ≤ model.K →
      1 ≤ gensvm_predict_labels testdata model U i ∧
        gensvm_predict_labels testdata model U i ≤ model.K) := by
  constructor
  · intro data model U i h
    obtain ⟨t, ht, hd⟩ := h
    have hd' : gensvm_pred_dist data model U i t < 1000000000 := by
      rw [gensvm_pred_dist_eq]
      refine (Real.sqrt_lt' (by norm_num)).mpr ?_
      calc gensvm_pred_distsq data model U i t < 10 ^ 18 := hd
        _ = (1000000000 : ℝ) ^ 2 := by norm_num
    unfold gensvm_predict_labels_linear
    have hpos := gensvm_predict_scan_fst_pos
      (fun j => gensvm_pred_dist data model U i j) model.K 1000000000
      ⟨t, ht, hd'⟩
    rcases gensvm_predict_scan_fst_cases
        (fun j => gensvm_pred_dist data model U i j) model.K 1000000000 with
      h0 | ⟨ha, hb⟩
    · rw [h0] at hpos; omega
    · exact ⟨ha, hb⟩
  · intro testdata model U i hK
    unfold gensvm_predict_labels
    rw [gensvm_predict_scan_inf_fst _ _ (by omega)]
    have hex : ∃ t, t < model.K ∧
        gensvm_pred_dist_r testdata model U i t
          < gensvm_pred_dist_r testdata model U i 0 + 1 :=
      ⟨0, by omega, lt_add_one _⟩
    have hpos := gensvm_predict_scan_fst_pos
      (fun j => gensvm_pred_dist_r testdata model U i j) model.K
      (gensvm_pred_dist_r testdata model U i 0 + 1) hex
    rcases gensvm_predict_scan_fst_cases
        (fun j => gensvm_pred_dist_r testdata model U i j) model.K
        (gensvm_pred_dist_r testdata model U i 0 + 1) with
      h0 | ⟨ha, hb⟩
    · rw [h0] at hpos; omega
    · exact ⟨ha, hb⟩

/-- Witness for C9: on the concrete `nearData` both prediction variants
output a label inside `[1, K] = [1, 2]`. -/
theorem claim_C9_witness :
    (2 : ℕ) ≤ 2 ∧
    (1 ≤ gensvm_predict_labels_linear nearData nearModel farU 0 ∧
      gensvm_predict_labels_linear nearData nearModel farU 0 ≤ nearModel.K) ∧
    (1 ≤ gensvm_predict_labels nearData nearModel farU 0 ∧
      gensvm_predict_labels nearData nearModel farU 0 ≤ nearModel.K) := by
  refine ⟨by omega, ?_, ?_⟩
  · exact claim_C9_label_range.1 nearData nearModel farU 0
      ⟨1, show 1 < 2 by omega, by rw [nearData_distsq_one]; norm_num⟩
  · exact claim_C9_label_range.2 nearData nearModel farU 0
      (show 2 ≤ 2 by omega)

lemma foldl_count_eq_sum (p : ℕ → Prop) [DecidablePred p] (n : ℕ) :
    (List.range n).foldl (fun acc i => if p i then acc + 1 else acc) (0 : ℤ)
      = ∑ i ∈ Finset.range n, if p i then (1 : ℤ) else 0 := by
  induction n with
  | zero => rfl
  | succ n ih =>
      rw [List.range_succ, List.foldl_append, ih, Finset.sum_range_succ]
      simp only [List.foldl_cons, List.foldl_nil]
      split
      · rfl
      · simp

lemma msvmmaj_compute_rbf_eq (x1 x2 kp : List ℝ) (n : ℕ) :
    msvmmaj_compute_rbf x1 x2 kp n
      = Real.exp ((∑ i ∈ Finset.range n,
          (x1.getD i 0 - x2.getD i 0) * (x1.getD i 0 - x2.getD i 0))
        * (-(kp.getD 0 0))) := rfl

lemma msvmmaj_compute_sigmoid_eq (x1 x2 kp : List ℝ) (n : ℕ) :
    msvmmaj_compute_sigmoid x1 x2 kp n
      = Real.tanh ((∑ i ∈ Finset.range n, x1.getD i 0 * x2.getD i 0)
          * kp.getD 0 0 + kp.getD 1 0) := rfl

/-- C3 (counterexample): on a dataset with one instance whose label is
predicted correctly, `gensvm_prediction_perf` returns 100, not the
fraction 1 the claim asserts. -/
theorem claim_C3_counterexample :
    gensvm_prediction_perf nearData (fun _ => 1) = 100 ∧ (100 : ℝ) ≠ 1 := by
  constructor
  · unfold gensvm_prediction_perf gensvm_prediction_correct nearData
    norm_num [List.range_succ]
  · norm_num

/-- C3 (amended): for every labeled dataset with `n >= 1` instances,
`gensvm_prediction_perf` returns the hit-rate — the fraction of instances
whose predicted label matches the true label — multiplied by 100, i.e. a
percentage. -/
theorem claim_C3_hitrate_percentage (data : GenData) (predy : ℕ → ℤ)
    (_hn : 1 ≤ data.n) :
    gensvm_prediction_perf data predy
      = (∑ i ∈ Finset.range data.n,
          if data.y i = predy i then (1 : ℝ) else 0) / (data.n : ℝ) * 100 := by
  unfold gensvm_prediction_perf gensvm_prediction_correct
  rw [foldl_count_eq_sum (fun i => data.y i = predy i) data.n]
  have hcast : ((∑ i ∈ Finset.range data.n,
      if data.y i = predy i then (1:ℤ) else 0 : ℤ) : ℝ)
      = ∑ i ∈ Finset.range data.n,
          if data.y i = predy i then (1:ℝ) else 0 := by
    rw [Int.cast_sum]
    exact Finset.sum_congr rfl (fun i _ => by split <;> simp)
  rw [hcast]

/-- Witness for C3: evaluating the amended statement on the concrete
one-instance dataset with a correct prediction. -/
theorem claim_C3_witness :
    1 ≤ nearData.n ∧
    gensvm_prediction_perf nearData (fun _ => 1)
      = (∑ i ∈ Finset.range nearData.n,
          if nearData.y i = (1 : ℤ) then (1 : ℝ) else 0) / (nearData.n : ℝ) * 100 :=
  ⟨Nat.le_refl 1, claim_C3_hitrate_percentage nearData (fun _ => 1) (Nat.le_refl 1)⟩

/-- C4 (counterexample): for the negative kernel parameter `gamma = -1`
and distinct one-feature instances 0 and 1, the RBF kernel value is
`exp 1 > 1`, outside the claimed interval `(0, 1]`. -/
theorem claim_C4_counterexample :
    1 < msvmmaj_compute_rbf [0] [1] [-1] 1 := by
  rw [msvmmaj_compute_rbf_eq]
  have hval : (∑ i ∈ Finset.range 1,
      (([(0:ℝ)].getD i 0) - ([(1:ℝ)].getD i 0)) *
        (([(0:ℝ)].getD i 0) - ([(1:ℝ)].getD i 0)))
      * (-([(-1:ℝ)].getD 0 0)) = 1 := by
    norm_num [Finset.sum_range_one]
  rw [hval]
  have h := Real.add_one_lt_exp (by norm_num : (1:ℝ) ≠ 0)
  linarith

/-- C4 (amended): the RBF kernel value of `msvmmaj_compute_rbf` is
symmetric in its two instances, the Gram matrix built by
`msvmmaj_make_kernel` is symmetric, and for every nonnegative kernel
parameter `gamma` the RBF value lies in `(0, 1]`. -/
theorem claim_C4_rbf_symmetric_bounded :
    (∀ (x1 x2 kp : List ℝ) (n : ℕ),
      msvmmaj_compute_rbf x1 x2 kp n = msvmmaj_compute_rbf x2 x1 kp n) ∧
    (∀ (model : MajModel) (data : MajData) (i j : ℕ),
      msvmmaj_make_kernel_gram model data i j
        = msvmmaj_make_kernel_gram model data j i) ∧
    (∀ (x1 x2 kp : List ℝ) (n : ℕ), 0 ≤ kp.getD 0 0 →
      0 < msvmmaj_compute_rbf x1 x2 kp n ∧
        msvmmaj_compute_rbf x1 x2 kp n ≤ 1) := by
  refine ⟨?_, ?_, ?_⟩
  · intro x1 x2 kp n
    rw [msvmmaj_compute_rbf_eq, msvmmaj_compute_rbf_eq]
    have hsum : (∑ i ∈ Finset.range n,
        (x1.getD i 0 - x2.getD i 0) * (x1.getD i 0 - x2.getD i 0))
        = ∑ i ∈ Finset.range n,
          (x2.getD i 0 - x1.getD i 0) * (x2.getD i 0 - x1.getD i 0) :=
      Finset.sum_congr rfl (fun i _ => by ring)
    rw [hsum]
  · intro model data i j
    unfold msvmmaj_make_kernel_gram
    rcases le_total i j with h | h
    · by_cases h' : j ≤ i
      · have hij : i = j := le_antisymm h h'
        subst hij
        simp
      · rw [if_pos h, if_neg h']
    · by_cases h' : i ≤ j
      · have hij : i = j := le_antisymm h' h
        subst hij
        simp
      · rw [if_neg h', if_pos h]
  · intro x1 x2 kp n hγ
    rw [msvmmaj_compute_rbf_eq]
    constructor
    · exact Real.exp_pos _
    · refine Real.exp_le_one_iff.mpr ?_
      have hsum : 0 ≤ ∑ i ∈ Finset.range n,
          (x1.getD i 0 - x2.getD i 0) * (x1.getD i 0 - x2.getD i 0) :=
        Finset.sum_nonneg (fun i _ => mul_self_nonneg _)
      have := mul_nonneg hsum hγ
      linarith [this]

/-- Witness for C4: at `gamma = 1` and the concrete instances 0 and 1 the
RBF kernel value lies in `(0, 1]`. -/
theorem claim_C4_witness :
    (0 : ℝ) ≤ [(1:ℝ)].getD 0 0 ∧
    (0 < msvmmaj_compute_rbf [0] [1] [1] 1 ∧
      msvmmaj_compute_rbf [0] [1] [1] 1 ≤ 1) :=
  ⟨by simp, claim_C4_rbf_symmetric_bounded.2.2 [0] [1] [1] 1 (by simp)⟩

/-- Concrete model requesting a sigmoid kernel with `gamma = 1`,
`coef = 0` on a single training instance. -/
noncomputable def sigModel : MajModel :=
{ n := 1, m := 1, K := 2, p := 1, kappa := 0, lambda := 1, epsilon := 1,
  weight_idx := 1, kerneltype := KernelType.K_SIGMOID, kernelparam := [1, 0],
  use_cholesky := false, W := [], t := [], V := [], Vbar := [], U := [],
  UU := [], Q := [], H := [], R := [], rho := [] }

/-- Concrete one-instance dataset with bias-augmented row `[1, 1]` (one
raw feature of value 1). -/
noncomputable def sigData : MajData :=
{ n := 1, m := 1, Z := [[1, 1]], y := [1],
  kerneltype := KernelType.K_LINEAR, kernelparam := [], use_cholesky := false }

/-- C1 (code bug): for the sigmoid kernel with `gamma = 1, coef = 0` on
the single instance with feature vector `(1)`, `msvmmaj_make_kernel`
stores Gram entry `(0,0) = exp(-1 * 0) = 1`, because its `K_SIGMOID`
branch calls `msvmmaj_compute_rbf`; the documented sigmoid kernel value
`msvmmaj_compute_sigmoid` gives `tanh(1 * 1 + 0) = tanh 1 ≠ 1`. -/
theorem claim_C1_sigmoid_dispatch :
    ((msvmmaj_make_kernel (fun _ => fun _ _ => 0) sigModel sigData).2.Z.getD
        0 []).getD 1 0 = 1 ∧
    msvmmaj_compute_sigmoid (majDataRow sigData 0) (majDataRow sigData 0)
        sigModel.kernelparam sigData.m = Real.tanh 1 ∧
    Real.tanh 1 ≠ 1 := by
  refine ⟨?_, ?_, ?_⟩
  · have hent : ((msvmmaj_make_kernel (fun _ => fun _ _ => 0) sigModel
        sigData).2.Z.getD 0 []).getD 1 0
        = msvmmaj_compute_rbf [1] [1] [(1:ℝ), 0] 1 := by
      rfl
    rw [hent, msvmmaj_compute_rbf_eq]
    norm_num [Finset.sum_range_one]
  · rw [msvmmaj_compute_sigmoid_eq]
    have hrow : majDataRow sigData 0 = [(1:ℝ)] := rfl
    rw [hrow]
    norm_num [sigData, sigModel, Finset.sum_range_one]
  · have h1 : Real.tanh 1 < 1 := by
      rw [Real.tanh_eq_sinh_div_cosh]
      rw [div_lt_one (Real.cosh_pos 1)]
      have h2 : Real.cosh 1 - Real.sinh 1 = Real.exp (-1) :=
        Real.cosh_sub_sinh 1
      have h3 : 0 < Real.exp (-1) := Real.exp_pos _
      linarith
    exact ne_of_lt h1

/-- C6: when the model's kernel type is linear, `msvmmaj_make_kernel`
returns immediately and every field of both the model and the data is
left unchanged. -/
theorem claim_C6_linear_passthrough
    (dpotrfL : (ℕ → ℕ → ℝ) → (ℕ → ℕ → ℝ)) (model : MajModel) (data : MajData)
    (h : model.kerneltype = KernelType.K_LINEAR) :
    msvmmaj_make_kernel dpotrfL model data = (model, data) := by
  unfold msvmmaj_make_kernel
  rw [if_pos h]

/-- Concrete linear-kernel model: `sigModel` with the kernel type set to
linear and no kernel parameters. -/
noncomputable def linModel : MajModel :=
{ sigModel with kerneltype := KernelType.K_LINEAR, kernelparam := [] }

/-- Witness for C6: on a concrete linear-kernel model and dataset,
`msvmmaj_make_kernel` is the identity on the pair. -/
theorem claim_C6_witness :
    linModel.kerneltype = KernelType.K_LINEAR ∧
    msvmmaj_make_kernel (fun _ => fun _ _ => 0) linModel sigData
      = (linModel, sigData) :=
  ⟨rfl, claim_C6_linear_passthrough (fun _ => fun _ _ => 0) linModel sigData rfl⟩

lemma list_getD_eq_of_length_one (l : List ℝ) (h : l.length = 1) :
    [l.getD 0 0] = l := by
  cases l with
  | nil => simp at h
  | cons a u =>
      cases u with
      | nil => rfl
      | cons b v => simp at h

lemma list_getD_eq_of_length_two (l : List ℝ) (h : l.length = 2) :
    [l.getD 0 0, l.getD 1 0] = l := by
  cases l with
  | nil => simp at h
  | cons a u =>
      cases u with
      | nil => simp at h
      | cons b v =>
          cases v with
          | nil => rfl
          | cons c w => simp at h

lemma list_getD_eq_of_length_three (l : List ℝ) (h : l.length = 3) :
    [l.getD 0 0, l.getD 1 0, l.getD 2 0] = l := by
  cases l with
  | nil => simp at h
  | cons a u =>
      cases u with
      | nil => simp at h
      | cons b v =>
          cases v with
          | nil => simp at h
          | cons c w =>
              cases w with
              | nil => rfl
              | cons e x => simp at h

/-- The expected length of the kernel parameter array for each kernel
type: 0 (NULL) for linear, 3 for polynomial, 1 for RBF, 2 for sigmoid. -/
def kernelparamLength (kt : KernelType) : ℕ :=
match kt with
| KernelType.K_LINEAR => 0
| KernelType.K_POLY => 3
| KernelType.K_RBF => 1
| KernelType.K_SIGMOID => 2

lemma msvmmaj_copy_kernelparam_eq (kt : KernelType) (kp : List ℝ)
    (hlin : kt ≠ KernelType.K_LINEAR) (h : kp.length = kernelparamLength kt) :
    msvmmaj_copy_kernelparam kt kp = kp := by
  cases kt with
  | K_LINEAR => exact absurd rfl hlin
  | K_POLY => exact list_getD_eq_of_length_three kp h
  | K_RBF => exact list_getD_eq_of_length_one kp h
  | K_SIGMOID => exact list_getD_eq_of_length_two kp h

/-- C5: after `msvmmaj_make_kernel` on a non-linear kernel with
`data->n = model->n = n >= 1` instances and a well-sized model parameter
array, the new `data->Z` has `n` rows of length `n + 1` each starting
with the bias entry 1, `data->m` and `model->m` both equal `n`, and the
kernel descriptor retained on the data (type and freshly copied parameter
array of length 1 for RBF, 2 for sigmoid, 3 for polynomial) equals the
model's. -/
theorem claim_C5_make_kernel_postconditions
    (dpotrfL : (ℕ → ℕ → ℝ) → (ℕ → ℕ → ℝ)) (model : MajModel) (data : MajData)
    (hlin : model.kerneltype ≠ KernelType.K_LINEAR)
    (_hn : 1 ≤ model.n)
    (hdn : data.n = model.n)
    (hlen : model.kernelparam.length = kernelparamLength model.kerneltype) :
    (msvmmaj_make_kernel dpotrfL model data).2.Z.length = data.n ∧
    (∀ row ∈ (msvmmaj_make_kernel dpotrfL model data).2.Z,
      row.length = data.n + 1) ∧
    (∀ row ∈ (msvmmaj_make_kernel dpotrfL model data).2.Z,
      row.getD 0 0 = 1) ∧
    (msvmmaj_make_kernel dpotrfL model data).2.m = data.n ∧
    (msvmmaj_make_kernel dpotrfL model data).1.m = data.n ∧
    (msvmmaj_make_kernel dpotrfL model data).2.kerneltype = model.kerneltype ∧
    (msvmmaj_make_kernel dpotrfL model data).2.kernelparam
      = model.kernelparam := by
  have hmk : msvmmaj_make_kernel dpotrfL model data =
      ({ model with m := model.n },
       { data with
         Z := (List.range model.n).map
           (fun i => (1 : ℝ) :: (List.range model.n).map
             (fun j => (if model.use_cholesky
               then dpotrfL (msvmmaj_make_kernel_gram model data)
               else msvmmaj_make_kernel_gram model data) i j))
         m := model.n
         kerneltype := model.kerneltype
         kernelparam := msvmmaj_copy_kernelparam model.kerneltype
           model.kernelparam
         use_cholesky := model.use_cholesky }) := by
    unfold msvmmaj_make_kernel
    rw [if_neg hlin]
  rw [hmk, hdn]
  refine ⟨by simp, ?_, ?_, rfl, rfl, rfl,
    msvmmaj_copy_kernelparam_eq model.kerneltype model.kernelparam hlin hlen⟩
  · intro row hrow
    simp only [List.mem_map, List.mem_range] at hrow
    obtain ⟨i, _, rfl⟩ := hrow
    simp
  · intro row hrow
    simp only [List.mem_map, List.mem_range] at hrow
    obtain ⟨i, _, rfl⟩ := hrow
    rfl

/-- Witness for C5: the postconditions evaluated on the concrete sigmoid
model and one-instance dataset. -/
theorem claim_C5_witness :
    (sigModel.kerneltype ≠ KernelType.K_LINEAR ∧ 1 ≤ sigModel.n ∧
      sigData.n = sigModel.n ∧
      sigModel.kernelparam.length = kernelparamLength sigModel.kerneltype) ∧
    ((msvmmaj_make_kernel (fun _ => fun _ _ => 0) sigModel sigData).2.Z.length
        = sigData.n ∧
      (∀ row ∈ (msvmmaj_make_kernel (fun _ => fun _ _ => 0) sigModel
          sigData).2.Z, row.length = sigData.n + 1) ∧
      (∀ row ∈ (msvmmaj_make_kernel (fun _ => fun _ _ => 0) sigModel
          sigData).2.Z, row.getD 0 0 = 1) ∧
      (msvmmaj_make_kernel (fun _ => fun _ _ => 0) sigModel sigData).2.m
        = sigData.n ∧
      (msvmmaj_make_kernel (fun _ => fun _ _ => 0) sigModel sigData).1.m
        = sigData.n ∧
      (msvmmaj_make_kernel (fun _ => fun _ _ => 0) sigModel
          sigData).2.kerneltype = sigModel.kerneltype ∧
      (msvmmaj_make_kernel (fun _ => fun _ _ => 0) sigModel
          sigData).2.kernelparam = sigModel.kernelparam) :=
  ⟨⟨by decide, Nat.le_refl 1, rfl, rfl⟩,
   claim_C5_make_kernel_postconditions (fun _ => fun _ _ => 0) sigModel
     sigData (by decide) (Nat.le_refl 1) rfl rfl⟩

/-- C7: `gensvm_copy_task` copies every hyperparameter field, copies the
kernel parameter array into a fresh array whose content equals the
original's (NULL for linear, 1 double for RBF, 3 for polynomial, 2 for
sigmoid), and shares the `train_data`/`test_data` references; hence, for
a task whose parameter array is well-sized for its kernel type, the copy
equals the original in every field. Mutation independence is immediate in
the embedding, where the copy is a separate value. -/
theorem claim_C7_copy_task (t : GenTask)
    (h : t.kernelparam.length = kernelparamLength t.kerneltype) :
    gensvm_copy_task t = t := by
  obtain ⟨kt, wi, fo, id, pp, ka, la, ep, kp, td, sd, pf⟩ := t
  unfold gensvm_copy_task gensvm_init_task
  cases kt with
  | K_LINEAR =>
      have hkp : kp = [] := List.length_eq_zero.mp h
      rw [hkp]
  | K_RBF =>
      have hkp : [kp.getD 0 0] = kp := list_getD_eq_of_length_one kp h
      simp only []
      rw [hkp]
  | K_POLY =>
      have hkp : [kp.getD 0 0, kp.getD 1 0, kp.getD 2 0] = kp :=
        list_getD_eq_of_length_three kp h
      simp only []
      rw [hkp]
  | K_SIGMOID =>
      have hkp : [kp.getD 0 0, kp.getD 1 0] = kp :=
        list_getD_eq_of_length_two kp h
      simp only []
      rw [hkp]

/-- Concrete RBF task with distinctive field values and shared data
references `3` and `4`. -/
noncomputable def rbfTask : GenTask :=
{ kerneltype := KernelType.K_RBF, weight_idx := 2, folds := 5, ID := 7,
  p := 1, kappa := 0, lambda := 1, epsilon := 1, kernelparam := [1],
  train_data := some 3, test_data := some 4, performance := 0 }

/-- Witness for C7: copying the concrete RBF task reproduces it exactly,
including the shared data references. -/
theorem claim_C7_witness :
    rbfTask.kernelparam.length = kernelparamLength rbfTask.kerneltype ∧
    gensvm_copy_task rbfTask = rbfTask :=
  ⟨rfl, claim_C7_copy_task rbfTask rfl⟩

/-- C8 (code bug): `msvmmaj_read_data` reads `y[0]` while parsing the
first line but only folds the labels of instances `1..n-1` into the
running maximum `K` and minimum `min_y`. On the all-non-negative raw
label column `[2, 1]` it succeeds with `K = 1` yet keeps `y[0] = 2`,
violating the claimed invariant that every label lies in `[1, K]`; on
`[-5, 3]` the negative first label is not rejected either. -/
theorem claim_C8_label_scan_skips_first :
    msvmmaj_read_data_labels [2, 1] = some ([2, 1], 1) ∧
    ¬ ((2 : ℤ) ≤ 1) ∧
    msvmmaj_read_data_labels [-5, 3] = some ([-5, 3], 3) := by
  refine ⟨by decide, by decide, by decide⟩

/-- C10: `msvmmaj_reallocate_model` with both dimensions unchanged is the
identity on the model; when only `n` changes, exactly the per-instance
buffers `UU, Q, H, R, rho` are resized (to `n*K*(K-1)`, `n*K`, `n*K`,
`n*K`, `n` doubles) and the field `n` updated, while `W, t, V, Vbar, U`
and every hyperparameter field are left unchanged. -/
theorem claim_C10_reallocate_frame (junk : ℝ) (model : MajModel) (n m : ℕ) :
    (n = model.n → m = model.m →
      msvmmaj_reallocate_model junk model n m = model) ∧
    (n ≠ model.n → m = model.m →
      msvmmaj_reallocate_model junk model n m =
        { model with
          n := n
          UU := reallocBuf junk model.UU (n * model.K * (model.K - 1))
          Q := reallocBuf junk model.Q (n * model.K)
          H := reallocBuf junk model.H (n * model.K)
          R := reallocBuf junk model.R (n * model.K)
          rho := reallocBuf junk model.rho n }) := by
  constructor
  · intro h1 h2
    unfold msvmmaj_reallocate_model
    rw [if_pos ⟨h1.symm, h2.symm⟩]
  · intro h1 h2
    unfold msvmmaj_reallocate_model
    have hA : ¬(model.n = n ∧ model.m = m) := fun hc => h1 hc.1.symm
    have hB : model.n ≠ n := fun hc => h1 hc.symm
    have hC : ¬(model.m ≠ m) := fun hc => hc h2.symm
    rw [if_neg hA, if_pos hB, if_neg hC]

/-- Concrete model with `n = 1`, `m = 2`, `K = 2` and small distinctive
buffers, for evaluating `msvmmaj_reallocate_model`. -/
noncomputable def reallocModel : MajModel :=
{ n := 1, m := 2, K := 2, p := 1, kappa := 0, lambda := 1, epsilon := 1,
  weight_idx := 1, kerneltype := KernelType.K_LINEAR, kernelparam := [],
  use_cholesky := false, W := [5], t := [6], V := [7], Vbar := [8],
  U := [9], UU := [10], Q := [11], H := [12], R := [13], rho := [14] }

/-- Witness for C10: on the concrete model, reallocating to the same
dimensions is the identity, and growing `n` from 1 to 3 resizes exactly
the per-instance buffers. -/
theorem claim_C10_witness :
    msvmmaj_reallocate_model 0 reallocModel 1 2 = reallocModel ∧
    msvmmaj_reallocate_model 0 reallocModel 3 2 =
      { reallocModel with
        n := 3
        UU := reallocBuf 0 reallocModel.UU (3 * reallocModel.K * (reallocModel.K - 1))
        Q := reallocBuf 0 reallocModel.Q (3 * reallocModel.K)
        H := reallocBuf 0 reallocModel.H (3 * reallocModel.K)
        R := reallocBuf 0 reallocModel.R (3 * reallocModel.K)
        rho := reallocBuf 0 reallocModel.rho 3 } :=
  ⟨(claim_C10_reallocate_frame 0 reallocModel 1 2).1 rfl rfl,
   (claim_C10_reallocate_frame 0 reallocModel 3 2).2
     (show (3 : ℕ) ≠ 1 by omega) rfl⟩

end GenSVM
